import Mathlib

set_option maxHeartbeats 1000000

namespace ContextMD

/- Shallow embedding of the context-md pipeline (Python sources).
   Conventions: Python float times and log probabilities are modeled as
   rationals (the thresholds 0.5, 1.0, 1.5 and 2.0 used by the claims are
   exactly representable in binary floating point, so the rational model is
   exact there); Python str is modeled as Lean String, except in the S3
   resolver where str is modeled as List Char to ease reasoning; Python dict
   records with possibly missing keys are modeled as structures with Option
   fields, and dict.get defaults are applied with Option.getD at use sites. -/

/- The Lean core string functions trim, toLower, split and splitOn, and the
   Mathlib arithmetic instances on the rationals, do not reduce inside the
   kernel (position loops and irreducible operations), so the Python string
   and float operations are embedded below by equivalent kernel-computable
   functions over the character list of a string and over mkRat. -/

/-- Rational subtraction, spelled through mkRat so that it evaluates in the
    kernel; qsub_eq_sub below shows it is ordinary subtraction. -/
def qsub (a b : ℚ) : ℚ := mkRat (a.num * b.den - b.num * a.den) (a.den * b.den)

/-- Rational multiplication, spelled through mkRat so that it evaluates in the
    kernel; qmul_eq_mul below shows it is ordinary multiplication. -/
def qmul (a b : ℚ) : ℚ := mkRat (a.num * b.num) (a.den * b.den)

/-- Python str.strip(): drop leading and trailing whitespace. -/
def pyStrip (s : String) : String :=
  ⟨((s.data.dropWhile Char.isWhitespace).reverse.dropWhile Char.isWhitespace).reverse⟩

/-- Python str.lower(), per character (ASCII; the claim inputs are ASCII). -/
def pyLower (s : String) : String := ⟨s.data.map Char.toLower⟩

/-- Accumulating loop of pySplit: groups of non-whitespace characters. -/
def splitWSAux : List Char → List Char → List String
  | [], acc => if acc = [] then [] else [⟨acc.reverse⟩]
  | c :: cs, acc =>
    if c.isWhitespace then
      if acc = [] then splitWSAux cs [] else ⟨acc.reverse⟩ :: splitWSAux cs []
    else splitWSAux cs (c :: acc)

/-- Python str.split() with no argument: split on whitespace runs, dropping
    empty pieces. -/
def pySplit (s : String) : List String := splitWSAux s.data []

/-- Test that the second list starts with the first. -/
def listStartsWith : List Char → List Char → Bool
  | [], _ => true
  | _ :: _, [] => false
  | p :: ps, c :: cs => if p = c then listStartsWith ps cs else false

/-- Occurrence of pat inside a character list. -/
def containsChars (pat : List Char) : List Char → Bool
  | [] => listStartsWith pat []
  | c :: t => listStartsWith pat (c :: t) || containsChars pat t

/-- Python substring test (the in operator on str): pat occurs somewhere inside s. -/
def containsStr (s pat : String) : Bool := containsChars pat.data s.data

/-- Python truthiness of an optional float: None and 0.0 are falsy, all other values truthy. -/
def truthyQ : Option ℚ → Bool
  | none => false
  | some x => decide (x ≠ 0)

/- ===== whisperX/whisperx_transcriber.py ===== -/

/-- Word entry of a WhisperX segment; only the speaker field is consumed by
    extract_clean_format, so the other word fields are not carried. -/
structure Word where
  speaker : Option String
  deriving DecidableEq

/-- WhisperX segment as consumed by the transcriber code. The Python dict keys
    start and end may be absent (segment.get with default 0); end is renamed to
    stop because it is a Lean keyword. -/
structure Segment where
  text : String
  start : Option ℚ
  stop : Option ℚ
  words : List Word
  avg_logprob : Option ℚ
  deriving DecidableEq

/-- Raw transcription result record: the fields of the result dict read by
    _filter_hallucinations and extract_clean_format. -/
structure WXResult where
  language : Option String
  detected_language : Option String
  segments : List Segment
  deriving DecidableEq

/-- Blocklist of known nonsense patterns from _is_hallucination. -/
def hallucination_patterns : List String :=
  ["totululululu", "lalalalala", "nanananana", "hahahaha",
   "okokokokok", "yesyesyesyes", "nonononono", "btw, totul"]

/-- Largest multiplicity of any single word of the list (Python max of word_counts.values(),
    0 when the list is empty). -/
def maxWordCount (ws : List String) : Nat :=
  (ws.map (fun w => ws.count w)).foldl Nat.max 0

/-- WhisperXTranscriber._is_hallucination, embedded as the disjunction of its
    sequential early-return checks. -/
def is_hallucination (text : String) : Bool :=
  let text_lower := pyStrip (pyLower text)
  decide (text_lower.data.length < 3) ||
  (decide (text_lower.data.eraseDups.length < 3) && decide (text_lower.data.length > 10)) ||
  hallucination_patterns.any (fun p => containsStr text_lower p) ||
  (let words := pySplit text_lower
   decide (3 < words.length) &&
   decide ((maxWordCount words : ℚ) > qmul (words.length : ℚ) (mkRat 1 2)))

/-- Phrase lengths tried by _is_internally_repetitive: range(2, min(6, len(words) / 2)). -/
def phraseLens (n : Nat) : List Nat :=
  List.range' 2 (Nat.min 6 (n / 2) - 2)

/-- Python range(k) for a possibly negative bound, as a list of naturals. -/
def pyRangeI (k : Int) : List Nat := List.range k.toNat

/-- WhisperXTranscriber._is_internally_repetitive. -/
def is_internally_repetitive (text : String) : Bool :=
  let words := pySplit text
  if words.length < 4 then false
  else
    decide ((maxWordCount words : ℚ) > qmul (words.length : ℚ) (mkRat 2 5)) ||
    ((phraseLens words.length).any (fun pl =>
      (pyRangeI ((words.length : Int) - pl * 2 + 1)).any (fun i =>
        decide ((words.drop i).take pl = (words.drop (i + pl)).take pl)))) ||
    decide ((words.eraseDups.length : ℚ) < qmul (words.length : ℚ) (mkRat 3 10))

/-- Loop of WhisperXTranscriber._filter_hallucinations; seen carries the texts
    of segments kept so far (a Python set, queried only for membership). -/
def filterGo (seen : List String) : List Segment → List Segment
  | [] => []
  | seg :: rest =>
    let text := pyStrip seg.text
    if text = "" then filterGo seen rest
    else if seen.contains text then filterGo seen rest
    else if is_hallucination text then filterGo seen rest
    else if decide (seg.avg_logprob.getD 0 < mkRat (-3) 2) then filterGo seen rest
    else if is_internally_repetitive text then filterGo seen rest
    else seg :: filterGo (text :: seen) rest

/-- WhisperXTranscriber._filter_hallucinations (the segments key is always
    present in this model, so the early return for a missing key is dropped). -/
def filter_hallucinations (result : WXResult) : WXResult :=
  { result with segments := filterGo [] result.segments }

/-- Python max(items, key=value) over dict items in insertion order: the first
    key attaining the maximal count wins. -/
def argmaxFirst (keys : List String) (count : String → Nat) : Option String :=
  keys.foldl (fun best k =>
    match best with
    | none => some k
    | some b => if count k > count b then some k else best) none

/-- Per-segment speaker vote of extract_clean_format: the most frequent
    nonempty word speaker; ties go to the speaker seen first (Python dict
    insertion order is order of first occurrence). -/
def segment_vote (seg : Segment) : Option String :=
  let speakers := seg.words.filterMap (fun w =>
    match w.speaker with
    | some s => if s = "" then none else some s
    | none => none)
  argmaxFirst speakers.eraseDups (fun s => speakers.count s)

/-- Lookback of extract_clean_format pass one, as written in the source:
    scan positions i-3, i-2, i-1 of the already assigned prefix in that order
    (for j in range(max(0, i-3), i)) and take the first assigned speaker. -/
def lookback (acc : List (Option String)) : Option String :=
  let i := acc.length
  ((List.range' (i - 3) (Nat.min 3 i)).filterMap (fun j => (acc.get? j).bind id)).head?

/-- Modelled from the claim wording of C2 only, for comparison with lookback:
    scan the up to three preceding positions nearest first, that is i-1, i-2,
    i-3 in that order. This is not code of the repository. -/
def lookback_nearest (acc : List (Option String)) : Option String :=
  let i := acc.length
  (((List.range' (i - 3) (Nat.min 3 i)).reverse).filterMap (fun j => (acc.get? j).bind id)).head?

/-- Value appended for one segment by the speaker-smoothing pass, given the
    already assigned prefix acc. -/
def smoothStepVal (acc : List (Option String)) (seg : Segment) : Option String :=
  if pyStrip seg.text = "" then none
  else
    match segment_vote seg with
    | some s => some s
    | none => some ((lookback acc).getD "SPEAKER_00")

/-- Tail recursion over the segments accumulating the assigned speakers. -/
def assignAux (acc : List (Option String)) : List Segment → List (Option String)
  | [] => acc
  | seg :: rest => assignAux (acc ++ [smoothStepVal acc seg]) rest

/-- First pass of extract_clean_format: per-segment speakers with temporal smoothing. -/
def assign_speakers (segments : List Segment) : List (Option String) :=
  assignAux [] segments

/-- Output turn record of extract_clean_format. -/
structure Turn where
  turn_id : Nat
  speaker : String
  text : String
  start_time : ℚ
  end_time : ℚ
  duration : ℚ
  deriving DecidableEq

/-- Mutable state of the turn-assembly loop of extract_clean_format. -/
structure AsmState where
  turn_id : Nat
  turns : List Turn
  current_speaker : Option String
  current_text_parts : List String
  current_start_time : Option ℚ
  current_end_time : Option ℚ
  deriving DecidableEq

/-- Initial state of the turn-assembly loop. -/
def initAsm : AsmState := ⟨1, [], none, [], none, none⟩

/-- Turn record flushed from the current state. -/
def mkTurn (st : AsmState) : Turn :=
  let s := st.current_start_time.getD 0
  let e := st.current_end_time.getD 0
  { turn_id := st.turn_id, speaker := st.current_speaker.getD "",
    text := pyStrip (String.intercalate " " st.current_text_parts),
    start_time := s, end_time := e, duration := qsub e s }

/-- Save condition of the source, including its Python truthiness tests on
    current_end_time and current_start_time (0.0 is falsy). -/
def saveCond (st : AsmState) : Bool :=
  st.current_speaker.isSome && decide (st.current_text_parts ≠ []) &&
  truthyQ st.current_end_time && truthyQ st.current_start_time &&
  decide (qsub (st.current_end_time.getD 0) (st.current_start_time.getD 0) ≥ 1)

/-- The should_start_new_turn test of the source, including the Python
    truthiness guard on current_end_time. -/
def should_start_new_turn (st : AsmState) (segment_speaker : String) (segment_start : ℚ) : Bool :=
  decide (some segment_speaker ≠ st.current_speaker) ||
  (truthyQ st.current_end_time && decide (qsub segment_start (st.current_end_time.getD 0) > 2))

/-- One iteration of the turn-assembly loop over (segment, assigned speaker). -/
def asmStep (st : AsmState) (p : Segment × Option String) : AsmState :=
  let seg := p.1
  let segment_text := pyStrip seg.text
  match p.2 with
  | none => st
  | some sp =>
    if segment_text = "" then st
    else
      let segment_start := seg.start.getD 0
      let segment_end := seg.stop.getD 0
      if should_start_new_turn st sp segment_start then
        let st1 :=
          if saveCond st then
            { st with turns := st.turns ++ [mkTurn st], turn_id := st.turn_id + 1 }
          else st
        { st1 with
            current_speaker := some sp
            current_text_parts := [segment_text]
            current_start_time := some segment_start
            current_end_time := some segment_end }
      else
        { st with
            current_text_parts := st.current_text_parts ++ [segment_text]
            current_end_time := some segment_end }

/-- Second pass of extract_clean_format: assemble turns, then flush the final
    turn under the same save condition. -/
def assemble (ps : List (Segment × Option String)) : List Turn :=
  let fin := ps.foldl asmStep initAsm
  if saveCond fin then fin.turns ++ [mkTurn fin] else fin.turns

/-- Ascending insertion into a sorted list of strings. -/
def insertSorted (x : String) : List String → List String
  | [] => [x]
  | y :: ys => if decide (x ≤ y) then x :: y :: ys else y :: insertSorted x ys

/-- Python sorted() on a list of strings (any correct sort; the inputs of the
    claims are at most singletons). -/
def sortStrings (l : List String) : List String := l.foldr insertSorted []

/-- Output record of extract_clean_format; total_segments and
    processing_quality appear only on the empty-segments early return. -/
structure LeanOut where
  languages_detected : List String
  turns : List Turn
  total_segments : Option Nat
  processing_quality : Option String
  deriving DecidableEq

/-- WhisperXTranscriber.extract_clean_format. The Python set of languages is
    modeled as first-occurrence deduplication, which matters only to the
    unsorted early return. -/
def extract_clean_format (result : WXResult) : LeanOut :=
  let languages := ([result.language, result.detected_language].filterMap id).eraseDups
  if result.segments = [] then
    { languages_detected := languages, turns := [],
      total_segments := some 0, processing_quality := some "no_segments" }
  else
    let segment_speakers := assign_speakers result.segments
    let turns := assemble (result.segments.zip segment_speakers)
    let languages_list := if languages = [] then ["unknown"] else sortStrings languages
    { languages_detected := languages_list, turns := turns,
      total_segments := none, processing_quality := none }

/- ===== sealion/translator.py ===== -/

/-- Turn record of the lean transcript JSON as consumed by the translator. -/
structure TTurn where
  turn_id : Option Nat
  speaker : Option String
  text : Option String
  deriving DecidableEq

/-- Python test of the source: text key missing, or text stripping to empty. -/
def pyTextEmpty (t : TTurn) : Bool :=
  match t.text with
  | none => true
  | some s => decide (pyStrip s = "")

/-- Remote interaction events observable from the translator. -/
inductive Event where
  | bulkCall
  | singleCall (text : String)
  | sleep (seconds : ℚ)
  deriving DecidableEq

/-- Model of the remote SEA-LION API: bulk is the outcome of the one bulk chat
    call, already viewed through the TURN-marker regular expression (error for
    a raised exception, otherwise the list of matched pairs of turn number and
    captured content); single is the outcome of each individual translate_text
    call keyed by input text; parseExc drives the defensive except path inside
    _parse_bulk_response. -/
structure ApiModel where
  bulk : Except Unit (List (Nat × String))
  single : String → Except Unit String
  parseExc : Bool

/-- Fixed inter-request delay of the translator (seconds). -/
def rate_limit_delay : ℚ := mkRat 13 2

/-- SEALionTranslator.translate_text: the returned content is stripped. The
    extra 60 second sleep taken only for rate-limit error strings sits below
    the abstraction of the error model and is not traced. -/
def translate_text (api : ApiModel) (text : String) : Except Unit String × List Event :=
  match api.single text with
  | .ok s => (.ok (pyStrip s), [Event.singleCall text])
  | .error e => (.error e, [Event.singleCall text])

/-- Loop of _translate_turns_individually over the enumerated turns; n is the
    total turn count. Empty turns are skipped by continue before the sleep;
    for translated turns the sleep is appended unless the index is the last. -/
def ttiGo (api : ApiModel) (n : Nat) : List (Nat × TTurn) → List String × List Event
  | [] => ([], [])
  | (i, t) :: rest =>
    let tail := ttiGo api n rest
    if pyTextEmpty t then ((t.text.getD "") :: tail.1, tail.2)
    else
      let this := translate_text api (t.text.getD "")
      let here := match this.1 with
        | .ok s => s
        | .error _ => t.text.getD ""
      let evs := if i < n - 1 then this.2 ++ [Event.sleep rate_limit_delay] else this.2
      (here :: tail.1, evs ++ tail.2)

/-- SEALionTranslator._translate_turns_individually. -/
def translate_turns_individually (api : ApiModel) (turns : List TTurn) :
    List String × List Event :=
  ttiGo api turns.length turns.enum

/-- SEALionTranslator._parse_bulk_response; matches is the regex findall
    result, parseExc the defensive except path which returns the empty list.
    The final fill-in loop of the source writes empty strings over empty
    strings and is kept as the identity map it is. -/
def parse_bulk_response (parseExc : Bool) (found : List (Nat × String))
    (total_turns : Nat) (turn_mapping : List Nat) : List String :=
  if parseExc then []
  else
    let init := List.replicate total_turns ""
    let filled := found.foldl (fun res m =>
      let ti : Int := (m.1 : Int) - 1
      if 0 ≤ ti ∧ ti < (total_turns : Int) then res.set ti.toNat (pyStrip m.2) else res) init
    filled.enum.map (fun p => if p.2 = "" ∧ p.1 < turn_mapping.length then "" else p.2)

/-- SEALionTranslator.translate_bulk_conversation, with the remote call and the
    marker regex abstracted by ApiModel. Returns the texts plus the trace of
    remote calls and sleeps. -/
def translate_bulk_conversation (api : ApiModel) (turns : List TTurn) :
    List String × List Event :=
  let turn_texts := turns.enum.filterMap (fun p =>
    if pyTextEmpty p.2 then none
    else some ("[TURN_" ++ toString (p.1 + 1) ++ "] " ++ (p.2.text.getD "")))
  let turn_mapping := turns.enum.filterMap (fun p =>
    if pyTextEmpty p.2 then none else some p.1)
  if turn_texts = [] then (turns.map (fun t => t.text.getD ""), [])
  else
    match api.bulk with
    | .ok ms => (parse_bulk_response api.parseExc ms turns.length turn_mapping, [Event.bulkCall])
    | .error _ =>
      let fb := translate_turns_individually api turns
      (fb.1, Event.bulkCall :: fb.2)

/-- Lean transcript JSON record as consumed by translate_json; dict keys may be
    absent. -/
structure TranscriptJson where
  languages_detected : Option (List String)
  turns : Option (List TTurn)
  deriving DecidableEq

/-- SEALionTranslator.should_skip_translation. -/
def should_skip_translation (json_data : TranscriptJson) : Bool :=
  decide (json_data.languages_detected.getD [] = ["en"])

/-- Application of translated texts back onto the turns: Python zip truncates,
    and only truthy (nonempty) translations overwrite. -/
def applyTexts : List TTurn → List String → List TTurn
  | ts, [] => ts
  | [], _ => []
  | t :: ts, x :: xs =>
    (if x ≠ "" then { t with text := some x } else t) :: applyTexts ts xs

/-- SEALionTranslator.translate_json, with the deep copy made explicit by value
    semantics. Returns the translated record plus the remote trace. -/
def translate_json (api : ApiModel) (json_data : TranscriptJson) :
    Except String (TranscriptJson × List Event) :=
  match json_data.turns with
  | none => .error "Invalid JSON format: missing turns array"
  | some ts =>
    if should_skip_translation json_data then .ok (json_data, [])
    else
      let bulk := translate_bulk_conversation api ts
      .ok ({ json_data with
              turns := some (applyTexts ts bulk.1)
              languages_detected := some ["en"] }, bulk.2)

/-- Heap of transcript objects addressed by position, modeling Python object
    identity: translate_json reads the object at address a, on the skip path
    returns the same address, and otherwise allocates a deep copy at a fresh
    address and mutates only that copy. -/
def translate_json_heap (api : ApiModel) (heap : List TranscriptJson) (a : Nat) :
    List TranscriptJson × Except String Nat :=
  match heap[a]? with
  | none => (heap, .error "dangling address")
  | some j =>
    match j.turns with
    | none => (heap, .error "Invalid JSON format: missing turns array")
    | some ts =>
      if should_skip_translation j then (heap, .ok a)
      else
        let copy := j
        let addr := heap.length
        let bulk := translate_bulk_conversation api ts
        let updated := { copy with
            turns := some (applyTexts ts bulk.1)
            languages_detected := some ["en"] }
        ((heap ++ [copy]).set addr updated, .ok addr)

/- ===== clinical_extractor_llm/extractor.py ===== -/

/-- JSON values appearing in the extraction records: null, strings, lists of
    strings, and the one empty object value. -/
inductive JValue where
  | null
  | str (s : String)
  | arr (xs : List String)
  | obj
  deriving DecidableEq

/-- ClinicalExtractorLLM._create_empty_extraction: the ClinicalRecord schema,
    keys in source order. -/
def create_empty_extraction : List (String × JValue) :=
  [("summary", .null), ("chief_complaint", .null), ("symptoms_present", .arr []),
   ("symptoms_negated", .arr []), ("onset_or_duration", .null),
   ("allergy_substance", .arr []), ("meds_current", .arr []),
   ("conditions_past", .arr []), ("primary_diagnosis", .null),
   ("rx_drug", .null), ("rx_dose", .null), ("follow_up", .null),
   ("red_flags", .arr [])]

/-- Initial record of ClinicalExtractorLLM._rule_based_extraction, keys in
    source order. -/
def rule_base_record : List (String × JValue) :=
  [("chief_complaint", .str ""), ("symptoms_present", .arr []),
   ("symptoms_absent", .arr []), ("medical_history", .arr []),
   ("medications", .arr []), ("allergies", .arr []),
   ("physical_examination", .obj), ("assessment_and_plan", .str ""),
   ("follow_up", .str ""), ("summary", .str "Rule-based extraction used")]

/-- Symptom keywords of the rule fallback. -/
def ruleSymptoms : List String :=
  ["fever", "cough", "headache", "nausea", "vomiting", "diarrhea", "fatigue"]

/-- Update of an existing key of a Python dict, insertion order preserved (the
    keys written by the rule fallback always exist in the record). -/
def setKey : List (String × JValue) → String → JValue → List (String × JValue)
  | [], _, _ => []
  | (k0, v0) :: rest, k, v =>
    if k0 = k then (k0, v) :: rest else (k0, v0) :: setKey rest k v

/-- The record with sym appended to its symptoms_present list. -/
def appendSymptom (r : List (String × JValue)) (sym : String) : List (String × JValue) :=
  match r.lookup "symptoms_present" with
  | some (.arr xs) => setKey r "symptoms_present" (.arr (xs ++ [sym]))
  | _ => r

/-- ClinicalExtractorLLM._rule_based_extraction. -/
def rule_based_extraction (text : String) : List (String × JValue) :=
  let text_lower := pyLower text
  ruleSymptoms.foldl (fun r sym =>
    if containsStr text_lower sym then appendSymptom r sym else r) rule_base_record

/- ===== aws/s3_downloader.py ===== -/

/-- Leading characters of an s3 URI. -/
def s3Scheme : List Char := ['s', '3', ':', '/', '/']

/-- Error message raised when no default bucket is configured. -/
def errNoBucket : List Char :=
  ("No default bucket configured. Set AUDIO_S3_BUCKET environment variable or provide full S3 URI").toList

/-- S3AudioDownloader.resolve_s3_uri over characters. For an s3 URI, urlparse
    yields the netloc up to the first slash after the scheme and the path as
    the rest; the Python comparison of netloc against a missing default bucket
    (None) is always unequal. -/
def resolve_s3_uri (default_bucket : Option (List Char)) (s3_path : List Char) :
    Except (List Char) (List Char) :=
  if listStartsWith s3Scheme s3_path then
    let rest := s3_path.drop 5
    let netloc := rest.takeWhile (fun c => c ≠ '/')
    let path := rest.dropWhile (fun c => c ≠ '/')
    if netloc ≠ [] ∧ '.' ∈ netloc ∧ default_bucket ≠ some netloc then
      match default_bucket with
      | none => .error errNoBucket
      | some b => .ok (s3Scheme ++ b ++ ['/'] ++ netloc)
    else if netloc ≠ [] ∧ path ≠ [] then .ok s3_path
    else if netloc ≠ [] then .ok s3_path
    else
      let filename := path.dropWhile (fun c => c = '/')
      match default_bucket with
      | none => .error errNoBucket
      | some b => .ok (s3Scheme ++ b ++ ['/'] ++ filename)
  else
    match default_bucket with
    | none => .error errNoBucket
    | some b => .ok (s3Scheme ++ b ++ ['/'] ++ (s3_path.dropWhile (fun c => c = '/')))

/- ===== pipeline_server.py ===== -/

/-- Presence of the four loaded workers in the registry. -/
structure Models where
  whisperx : Bool
  translator : Bool
  clinical : Bool
  s3 : Bool
  deriving DecidableEq

/-- Observable stage decisions of one pipeline run. -/
structure PipelineTrace where
  translationAttempted : Bool
  clinicalAttempted : Bool
  deriving DecidableEq

/-- Gates of run_pipeline: transcription requires the whisperx worker; step 3
    runs when not skip_translation and a translator is loaded; step 4 runs
    when not skip_clinical and a clinical extractor is loaded. File handling,
    S3 download and the model invocations themselves are abstracted as
    succeeding; only the skip and presence decision structure is embedded. -/
def run_pipeline (m : Models) (skip_translation skip_clinical : Bool) :
    Except String PipelineTrace :=
  if !m.whisperx then .error "WhisperX not available"
  else .ok ⟨!skip_translation && m.translator, !skip_clinical && m.clinical⟩

/-- Run request fields read by process_command; JSON booleans are modeled as
    Bool (bool() of a Python bool is the identity). -/
structure RunRequest where
  job_id : Option String
  audio_path : Option String
  audio_s3_path : Option String
  skip_translation : Option Bool
  skip_clinical : Option Bool
  deriving DecidableEq

/-- Python or-chain over two optional strings with truthiness: an empty string
    counts as absent. -/
def pyOrStr (a b : Option String) : Option String :=
  match a with
  | some s => if s ≠ "" then some s else
      match b with
      | some r => if r ≠ "" then some r else none
      | none => none
  | none =>
      match b with
      | some r => if r ≠ "" then some r else none
      | none => none

/-- Job id selection: req.get with an or-fallback to a fresh uuid. -/
def job_id_of (req : RunRequest) (fresh_uuid : String) : String :=
  match req.job_id with
  | some s => if s ≠ "" then s else fresh_uuid
  | none => fresh_uuid

/-- Responses emitted by the run branch of process_command. -/
inductive Response where
  | done (job_id : String) (trace : PipelineTrace)
  | failed (job_id : String) (error : String)
  deriving DecidableEq

/-- Run branch of process_command: the skip flag defaults and the dispatch to
    run_pipeline. -/
def process_run (m : Models) (fresh_uuid : String) (req : RunRequest) : Response :=
  let job_id := job_id_of req fresh_uuid
  match pyOrStr req.audio_path req.audio_s3_path with
  | none => .failed job_id "Missing audio_path or audio_s3_path"
  | some _ =>
    let skip_translation := req.skip_translation.getD false
    let skip_clinical := req.skip_clinical.getD true
    match run_pipeline m skip_translation skip_clinical with
    | .ok tr => .done job_id tr
    | .error e => .failed job_id e

/- ===== Concrete inputs used by the claim theorems ===== -/

/-- Segment starting at time zero with duration 1.5 seconds. -/
def segC1 : Segment :=
  { text := "hello world", start := some 0, stop := some (mkRat 3 2), words := [], avg_logprob := none }

/-- Raw result holding segC1. -/
def rC1 : WXResult := { language := some "en", detected_language := some "en", segments := [segC1] }

/-- Segment with a word voting for speaker one. -/
def segA : Segment :=
  { text := "one", start := some 0, stop := some 1, words := [⟨some "SPEAKER_01"⟩], avg_logprob := none }

/-- Segment with a word voting for speaker two. -/
def segB : Segment :=
  { text := "two", start := some 1, stop := some 2, words := [⟨some "SPEAKER_02"⟩], avg_logprob := none }

/-- Segment with no word-level speaker vote. -/
def segC : Segment :=
  { text := "three", start := some 2, stop := some 3, words := [], avg_logprob := none }

/-- Two nonempty turns for the translator. -/
def turnsX : List TTurn :=
  [{ turn_id := some 1, speaker := some "SPEAKER_00", text := some "bonjour" },
   { turn_id := some 2, speaker := some "SPEAKER_01", text := some "merci" }]

/-- API behavior where the bulk call succeeds but the defensive parse path raises. -/
def apiParseFail : ApiModel := { bulk := .ok [], single := fun _ => .ok "X", parseExc := true }

/-- Hard-repetition segment with only three words. -/
def segC4 : Segment :=
  { text := "hey hey yo", start := some 0, stop := some 2, words := [], avg_logprob := some 0 }

/-- Raw result holding segC4. -/
def rC4 : WXResult := { language := none, detected_language := none, segments := [segC4] }

/-- Ordinary surviving segment with four distinct words. -/
def segOkWords : Segment :=
  { text := "hello there my friend", start := some 0, stop := some 2, words := [], avg_logprob := some 0 }

/-- Raw result holding segOkWords. -/
def rOkWords : WXResult := { language := none, detected_language := none, segments := [segOkWords] }

/-- Assembly state whose current turn ends at time zero. -/
def stZeroEnd : AsmState :=
  { turn_id := 1, turns := [], current_speaker := some "SPEAKER_01",
    current_text_parts := ["hello"], current_start_time := some 0, current_end_time := some 0 }

/-- Assembly state with nonzero times. -/
def stNormal : AsmState :=
  { turn_id := 1, turns := [], current_speaker := some "SPEAKER_01",
    current_text_parts := ["hello"], current_start_time := some 1, current_end_time := some 3 }

/-- English transcript record. -/
def jsonEn : TranscriptJson := { languages_detected := some ["en"], turns := some turnsX }

/-- Full worker registry. -/
def modelsAll : Models := { whisperx := true, translator := true, clinical := true, s3 := true }

/-- Run request with both skip flags omitted. -/
def reqDefaults : RunRequest :=
  { job_id := some "job-1", audio_path := some "a.wav", audio_s3_path := none,
    skip_translation := none, skip_clinical := none }

deriving instance DecidableEq for Except

/- ===== Helper lemmas ===== -/

theorem qsub_eq_sub (a b : ℚ) : qsub a b = a - b := by
  unfold qsub
  rw [Rat.mkRat_eq_div]
  conv_rhs => rw [← Rat.num_div_den a, ← Rat.num_div_den b]
  have ha : ((a.den : ℚ)) ≠ 0 := by exact_mod_cast a.den_nz
  have hb : ((b.den : ℚ)) ≠ 0 := by exact_mod_cast b.den_nz
  push_cast
  field_simp
  ring

theorem qmul_eq_mul (a b : ℚ) : qmul a b = a * b := by
  unfold qmul
  rw [Rat.mkRat_eq_div]
  conv_rhs => rw [← Rat.num_div_den a, ← Rat.num_div_den b]
  have ha : ((a.den : ℚ)) ≠ 0 := by exact_mod_cast a.den_nz
  have hb : ((b.den : ℚ)) ≠ 0 := by exact_mod_cast b.den_nz
  push_cast
  field_simp

theorem assignAux_cons (acc : List (Option String)) (s : Segment) (rest : List Segment) :
    assignAux acc (s :: rest) = assignAux (acc ++ [smoothStepVal acc s]) rest := rfl

theorem assignAux_prefix (segs : List Segment) :
    ∀ acc, ∃ r, assignAux acc segs = acc ++ r := by
  induction segs with
  | nil => intro acc; exact ⟨[], by simp [assignAux]⟩
  | cons s rest ih =>
    intro acc
    obtain ⟨r, hr⟩ := ih (acc ++ [smoothStepVal acc s])
    exact ⟨smoothStepVal acc s :: r, by simp [assignAux_cons, hr]⟩

theorem assignAux_get (segs : List Segment) :
    ∀ (acc : List (Option String)) (i : Nat) (seg : Segment), segs[i]? = some seg →
    (assignAux acc segs)[acc.length + i]? =
      some (smoothStepVal ((assignAux acc segs).take (acc.length + i)) seg) := by
  induction segs with
  | nil => intro acc i seg h; simp at h
  | cons s rest ih =>
    intro acc i seg h
    match i with
    | 0 =>
      have hseg : s = seg := by simpa using h
      subst hseg
      rw [assignAux_cons]
      obtain ⟨r, hr⟩ := assignAux_prefix rest (acc ++ [smoothStepVal acc s])
      rw [hr, List.append_assoc, Nat.add_zero]
      rw [List.getElem?_append_right (Nat.le_refl acc.length)]
      have htake : (acc ++ ([smoothStepVal acc s] ++ r)).take acc.length = acc :=
        List.take_left acc ([smoothStepVal acc s] ++ r)
      rw [htake]
      simp
    | Nat.succ i =>
      have hrest : rest[i]? = some seg := by simpa using h
      rw [assignAux_cons]
      have hidx : acc.length + (i + 1) = (acc ++ [smoothStepVal acc s]).length + i := by
        simp [List.length_append]; omega
      rw [hidx]
      exact ih (acc ++ [smoothStepVal acc s]) i seg hrest

theorem assign_speakers_get (segs : List Segment) (i : Nat) (seg : Segment)
    (h : segs[i]? = some seg) :
    (assign_speakers segs)[i]? =
      some (smoothStepVal ((assign_speakers segs).take i) seg) := by
  have hg := assignAux_get segs [] i seg h
  simpa [assign_speakers] using hg

theorem filterGo_not_hallucination (l : List Segment) :
    ∀ (seen : List String) (s : Segment), s ∈ filterGo seen l →
      is_hallucination (pyStrip s.text) = false := by
  induction l with
  | nil => intro seen s h; simp [filterGo] at h
  | cons seg rest ih =>
    intro seen s h
    simp only [filterGo] at h
    split at h
    · exact ih _ _ h
    · split at h
      · exact ih _ _ h
      · split at h
        · exact ih _ _ h
        · split at h
          · exact ih _ _ h
          · split at h
            · exact ih _ _ h
            · rcases List.mem_cons.mp h with heq | hmem
              · subst heq
                rename_i hnot _ _
                simpa using hnot
              · exact ih _ _ hmem

theorem is_hallucination_of_hard_rep (text : String)
    (h1 : 3 < (pySplit (pyStrip (pyLower text))).length)
    (h2 : (maxWordCount (pySplit (pyStrip (pyLower text))) : ℚ) >
          qmul ((pySplit (pyStrip (pyLower text))).length : ℚ) (mkRat 1 2)) :
    is_hallucination text = true := by
  unfold is_hallucination
  simp only [Bool.or_eq_true, Bool.and_eq_true, decide_eq_true_eq]
  exact Or.inr ⟨h1, h2⟩

theorem setKey_map_fst (l : List (String × JValue)) (k : String) (v : JValue) :
    (setKey l k v).map Prod.fst = l.map Prod.fst := by
  induction l with
  | nil => rfl
  | cons p rest ih =>
    rcases p with ⟨k0, v0⟩
    by_cases h : k0 = k
    · simp [setKey, h]
    · simp [setKey, h, ih]

theorem lookup_setKey_ne (l : List (String × JValue)) (k q : String) (v : JValue)
    (h : q ≠ k) :
    (setKey l k v).lookup q = l.lookup q := by
  induction l with
  | nil => rfl
  | cons p rest ih =>
    rcases p with ⟨k0, v0⟩
    by_cases hk : k0 = k
    · subst hk
      have hbeq : (q == k0) = false := beq_eq_false_iff_ne.mpr h
      simp [setKey, List.lookup, hbeq]
    · simp [setKey, hk, List.lookup, ih]

theorem appendSymptom_map_fst (r : List (String × JValue)) (sym : String) :
    (appendSymptom r sym).map Prod.fst = r.map Prod.fst := by
  unfold appendSymptom
  split
  · exact setKey_map_fst _ _ _
  · rfl

theorem appendSymptom_lookup_summary (r : List (String × JValue)) (sym : String) :
    (appendSymptom r sym).lookup "summary" = r.lookup "summary" := by
  unfold appendSymptom
  split
  · exact lookup_setKey_ne _ _ _ _ (by decide)
  · rfl

theorem ruleFold_preserves (tl : String) (syms : List String) :
    ∀ r : List (String × JValue),
      ((syms.foldl (fun r sym => if containsStr tl sym then appendSymptom r sym else r) r).map Prod.fst
          = r.map Prod.fst) ∧
      ((syms.foldl (fun r sym => if containsStr tl sym then appendSymptom r sym else r) r).lookup "summary"
          = r.lookup "summary") := by
  induction syms with
  | nil => intro r; exact ⟨rfl, rfl⟩
  | cons sym rest ih =>
    intro r
    simp only [List.foldl_cons]
    by_cases h : containsStr tl sym = true
    · rw [if_pos h]
      obtain ⟨h1, h2⟩ := ih (appendSymptom r sym)
      exact ⟨h1.trans (appendSymptom_map_fst r sym), h2.trans (appendSymptom_lookup_summary r sym)⟩
    · rw [if_neg h]
      exact ih r

theorem listStartsWith_append (p t : List Char) : listStartsWith p (p ++ t) = true := by
  induction p with
  | nil => rfl
  | cons c cs ih => simp [listStartsWith, ih]

theorem takeWhile_no_slash (l : List Char) (h : '/' ∉ l) :
    l.takeWhile (fun c => c ≠ '/') = l := by
  induction l with
  | nil => rfl
  | cons c cs ih =>
    have hc : c ≠ '/' := fun e => h (e ▸ List.mem_cons_self c cs)
    have hcs : '/' ∉ cs := fun e => h (List.mem_cons_of_mem c e)
    simp only [List.takeWhile_cons]
    rw [if_pos (by simp [hc]), ih hcs]

theorem dropWhile_no_slash (l : List Char) (h : '/' ∉ l) :
    l.dropWhile (fun c => c ≠ '/') = [] := by
  induction l with
  | nil => rfl
  | cons c cs ih =>
    have hc : c ≠ '/' := fun e => h (e ▸ List.mem_cons_self c cs)
    have hcs : '/' ∉ cs := fun e => h (List.mem_cons_of_mem c e)
    simp only [List.dropWhile_cons]
    rw [if_pos (by simp [hc])]
    exact ih hcs

/- ===== Claim theorems ===== -/

/-- Claim C1, code-bug evaluation: a single segment of duration 1.5 seconds starting at
    time 0.0 yields an empty turn list, because the save condition applies Python
    truthiness to current_start_time and so treats a start time of 0.0 like None; the
    claim (and Pass 4 of the specification) requires exactly the turns of duration at
    least one second to be kept, in particular this one. -/
theorem C1_start_zero_turn_dropped :
    extract_clean_format rC1 = ⟨["en"], [], none, none⟩ ∧
    qsub (segC1.stop.getD 0) (segC1.start.getD 0) ≥ 1 := by
  constructor
  · decide
  · decide

/-- Claim C2, counterexample: segment segC has nonempty text and no word-level vote;
    the nearest preceding segment with a speaker is segB (SPEAKER_02), but the code
    assigns SPEAKER_01 because its lookback scans the three-segment window oldest
    first. -/
theorem C2_nearest_lookback_refuted :
    assign_speakers [segA, segB, segC] =
      [some "SPEAKER_01", some "SPEAKER_02", some "SPEAKER_01"] ∧
    pyStrip segC.text ≠ "" ∧
    segment_vote segC = none ∧
    lookback_nearest ((assign_speakers [segA, segB, segC]).take 2) = some "SPEAKER_02" ∧
    ("SPEAKER_01" : String) ≠ "SPEAKER_02" := by
  decide

/-- Claim C2, amended: a segment with nonempty text and no word-level speaker vote is
    assigned the speaker of the earliest (not nearest) of the up to three preceding
    positions that carries an assigned speaker, scanning forward from position i-3;
    if none of them does, it gets the default id SPEAKER_00. -/
theorem C2_smoothing_inherits_earliest (segs : List Segment) (i : Nat) (seg : Segment)
    (h : segs[i]? = some seg) (ht : pyStrip seg.text ≠ "") (hv : segment_vote seg = none) :
    (assign_speakers segs)[i]? =
      some (some ((lookback ((assign_speakers segs).take i)).getD "SPEAKER_00")) := by
  have hg := assign_speakers_get segs i seg h
  rw [hg]
  simp [smoothStepVal, ht, hv]

/-- Witness for C2_smoothing_inherits_earliest at the three-segment input. -/
theorem C2_smoothing_inherits_earliest_witness :
    (assign_speakers [segA, segB, segC])[2]? =
      some (some ((lookback ((assign_speakers [segA, segB, segC]).take 2)).getD "SPEAKER_00")) :=
  C2_smoothing_inherits_earliest [segA, segB, segC] 2 segC (by decide) (by decide) (by decide)

/-- Claim C3, code-bug evaluation: with two nonempty turns, a successful bulk call and
    a parse yielding fewer texts than turns (the defensive parse path returns the empty
    list), translate_bulk_conversation returns the short list as is: the trace holds
    only the bulk call, with no per-turn calls and no inter-request sleep, although the
    claim (and the source comment on the parse fallback) requires per-turn fallback. -/
theorem C3_no_fallback_on_short_parse :
    translate_bulk_conversation apiParseFail turnsX = ([], [Event.bulkCall]) ∧
    (translate_bulk_conversation apiParseFail turnsX).1.length < turnsX.length ∧
    Event.sleep rate_limit_delay ∉ (translate_bulk_conversation apiParseFail turnsX).2 := by
  decide

/-- Claim C4, counterexample: in the three-word segment text of segC4 one word occupies
    more than half of the words, yet the segment is kept by the hallucination filter,
    because the hard-repetition rule is applied only to segments with more than three
    words. -/
theorem C4_short_segment_kept :
    ((maxWordCount (pySplit (pyStrip (pyLower (pyStrip segC4.text)))) : ℚ) >
      qmul ((pySplit (pyStrip (pyLower (pyStrip segC4.text)))).length : ℚ) (mkRat 1 2)) ∧
    filter_hallucinations rC4 = rC4 := by
  decide

/-- Claim C4, amended: for every segment with more than three words, if any single word
    occupies strictly more than half of the word count then the segment is dropped;
    equivalently, every segment surviving the filter and holding more than three words
    has no such dominating word. Segments with three or fewer words are exempt. -/
theorem C4_hard_repetition_over_three_words (r : WXResult) (s : Segment)
    (hmem : s ∈ (filter_hallucinations r).segments)
    (hlen : 3 < (pySplit (pyStrip (pyLower (pyStrip s.text)))).length) :
    ¬ ((maxWordCount (pySplit (pyStrip (pyLower (pyStrip s.text)))) : ℚ) >
       qmul ((pySplit (pyStrip (pyLower (pyStrip s.text)))).length : ℚ) (mkRat 1 2)) := by
  intro hmax
  have hmem2 : s ∈ filterGo [] r.segments := by
    simpa [filter_hallucinations] using hmem
  have hfalse := filterGo_not_hallucination r.segments [] s hmem2
  have htrue := is_hallucination_of_hard_rep (pyStrip s.text) hlen hmax
  rw [htrue] at hfalse
  simp at hfalse

/-- Witness for C4_hard_repetition_over_three_words at a surviving four-word segment. -/
theorem C4_hard_repetition_over_three_words_witness :
    ¬ ((maxWordCount (pySplit (pyStrip (pyLower (pyStrip segOkWords.text)))) : ℚ) >
       qmul ((pySplit (pyStrip (pyLower (pyStrip segOkWords.text)))).length : ℚ) (mkRat 1 2)) :=
  C4_hard_repetition_over_three_words rOkWords segOkWords (by decide) (by decide)

/-- Claim C5, counterexample: with the current turn ending exactly at 0.0 and a same
    speaker segment starting at 5.0 the gap exceeds two seconds, yet no new turn is
    started, because the gap test is guarded by Python truthiness of the end time. -/
theorem C5_zero_end_gap_ignored :
    should_start_new_turn stZeroEnd "SPEAKER_01" 5 = false ∧
    stZeroEnd.current_speaker = some "SPEAKER_01" ∧
    (qsub 5 (stZeroEnd.current_end_time.getD 0) > 2) := by
  decide

/-- Claim C5, amended: during turn assembly a new turn starts exactly when the segment
    speaker differs from the current one, or the current end time is truthy (neither
    None nor 0.0) and the gap is strictly greater than 2.0 seconds; in particular a gap
    of exactly 2.0 seconds between same-speaker segments never splits a turn. -/
theorem C5_boundary_characterization (st : AsmState) (sp cs : String) (s : ℚ)
    (h : st.current_speaker = some cs) :
    (should_start_new_turn st sp s = true ↔
      (sp ≠ cs ∨ (truthyQ st.current_end_time = true ∧
        qsub s (st.current_end_time.getD 0) > 2))) := by
  simp [should_start_new_turn, h]

/-- Witness for C5_boundary_characterization at a state with nonzero end time. -/
theorem C5_boundary_characterization_witness :
    should_start_new_turn stNormal "SPEAKER_01" (mkRat 51 10) = true ↔
      (("SPEAKER_01" : String) ≠ "SPEAKER_01" ∨ (truthyQ stNormal.current_end_time = true ∧
        qsub (mkRat 51 10) (stNormal.current_end_time.getD 0) > 2)) :=
  C5_boundary_characterization stNormal "SPEAKER_01" "SPEAKER_01" (mkRat 51 10) rfl

/-- Claim C6, confirmed: a transcript whose languages_detected equals exactly the list
    of the single code en is returned unchanged by translate_json, with no remote call
    in the trace. -/
theorem C6_english_passthrough (api : ApiModel) (j : TranscriptJson) (ts : List TTurn)
    (h1 : j.turns = some ts) (h2 : j.languages_detected = some ["en"]) :
    translate_json api j = .ok (j, []) := by
  unfold translate_json
  rw [h1]
  have hskip : should_skip_translation j = true := by
    simp [should_skip_translation, h2]
  simp [hskip]

/-- Witness for C6_english_passthrough at a concrete English transcript. -/
theorem C6_english_passthrough_witness :
    translate_json apiParseFail jsonEn = .ok (jsonEn, []) :=
  C6_english_passthrough apiParseFail jsonEn turnsX rfl rfl

/-- Claim C7, counterexample: the field symptoms_negated belongs to the ClinicalRecord
    schema of the LLM strategy but not to the record produced by the rule fallback, so
    the two strategies do not produce the same field set. -/
theorem C7_schema_mismatch :
    ("symptoms_negated" ∈ create_empty_extraction.map Prod.fst) ∧
    ("symptoms_negated" ∉ (rule_based_extraction "any text").map Prod.fst) := by
  decide

/-- Claim C7, amended: for every input text the rule fallback produces the fixed key
    set chief_complaint, symptoms_present, symptoms_absent, medical_history,
    medications, allergies, physical_examination, assessment_and_plan, follow_up and
    summary, which differs from the ClinicalRecord schema, and its summary field holds
    the constant sentinel noting the rule-based method. -/
theorem C7_rule_record_shape (text : String) :
    (rule_based_extraction text).map Prod.fst =
      ["chief_complaint", "symptoms_present", "symptoms_absent", "medical_history",
       "medications", "allergies", "physical_examination", "assessment_and_plan",
       "follow_up", "summary"] ∧
    (rule_based_extraction text).lookup "summary" =
      some (.str "Rule-based extraction used") := by
  obtain ⟨h1, h2⟩ := ruleFold_preserves (pyLower text) ruleSymptoms rule_base_record
  exact ⟨h1.trans (by decide), h2.trans (by decide)⟩

/-- Claim C8, counterexample: a URI whose dotted host equals the configured default
    bucket is returned unchanged by resolve_s3_uri, not rewritten to the claimed
    default_bucket/filename form. -/
theorem C8_host_equal_bucket :
    ("my.bucket".toList ≠ ([] : List Char)) ∧
    ('.' ∈ "my.bucket".toList) ∧
    ('/' ∉ "my.bucket".toList) ∧
    resolve_s3_uri (some ("my.bucket".toList)) ("s3://my.bucket".toList) =
      .ok ("s3://my.bucket".toList) ∧
    resolve_s3_uri (some ("my.bucket".toList)) ("s3://my.bucket".toList) ≠
      .ok ("s3://my.bucket/my.bucket".toList) := by
  decide

/-- Claim C8, amended: for URIs made of the s3 scheme followed by a dotted filename
    with no slash, resolution yields s3 scheme, default bucket, slash, filename when a
    default bucket is configured and the host differs from that bucket name (a host
    equal to the default bucket is returned unchanged), and fails with the
    configuration error when no default bucket is available. -/
theorem C8_host_as_filename (b f : List Char)
    (h1 : f ≠ []) (h2 : '.' ∈ f) (h3 : '/' ∉ f) (h4 : f ≠ b) :
    resolve_s3_uri (some b) (s3Scheme ++ f) = .ok (s3Scheme ++ b ++ ['/'] ++ f) ∧
    resolve_s3_uri none (s3Scheme ++ f) = .error errNoBucket := by
  have hpre : listStartsWith s3Scheme (s3Scheme ++ f) = true := listStartsWith_append _ _
  have hdrop : (s3Scheme ++ f).drop 5 = f := List.drop_left s3Scheme f
  have htake : f.takeWhile (fun c => c ≠ '/') = f := takeWhile_no_slash f h3
  have hdw : f.dropWhile (fun c => c ≠ '/') = [] := dropWhile_no_slash f h3
  constructor
  · simp only [resolve_s3_uri, hpre, if_true, hdrop, htake, hdw]
    rw [if_pos ⟨h1, h2, by simp [Ne.symm h4]⟩]
  · simp only [resolve_s3_uri, hpre, if_true, hdrop, htake, hdw]
    rw [if_pos ⟨h1, h2, by simp⟩]

/-- Witness for C8_host_as_filename at a concrete filename URI. -/
theorem C8_host_as_filename_witness :
    resolve_s3_uri (some ("bkt".toList)) (s3Scheme ++ "x.mp3".toList) =
      .ok (s3Scheme ++ "bkt".toList ++ ['/'] ++ "x.mp3".toList) ∧
    resolve_s3_uri none (s3Scheme ++ "x.mp3".toList) = .error errNoBucket :=
  C8_host_as_filename ("bkt".toList) ("x.mp3".toList) (by decide) (by decide) (by decide)
    (by decide)

/-- Claim C9, confirmed: with the flags omitted, skip_translation defaults to false and
    skip_clinical defaults to true, so the run executes with translation attempted
    exactly when a translator is loaded and with clinical extraction skipped; and a run
    only attempts clinical extraction when skip_clinical is given as false and a
    clinical extractor is loaded. -/
theorem C9_skip_flag_defaults (m : Models) (req : RunRequest) (fresh_uuid p : String)
    (hw : m.whisperx = true) (hp : req.audio_path = some p) (hne : p ≠ "") :
    (req.skip_translation = none → req.skip_clinical = none →
      process_run m fresh_uuid req =
        .done (job_id_of req fresh_uuid) ⟨m.translator, false⟩) ∧
    (∀ jid tr, process_run m fresh_uuid req = .done jid tr →
      tr.clinicalAttempted = true → req.skip_clinical = some false ∧ m.clinical = true) := by
  have hor : pyOrStr req.audio_path req.audio_s3_path = some p := by
    rw [hp]; simp [pyOrStr, hne]
  constructor
  · intro h1 h2
    simp [process_run, hor, h1, h2, run_pipeline, hw]
  · intro jid tr hdone hcl
    simp [process_run, hor, run_pipeline, hw] at hdone
    obtain ⟨hjid, htr⟩ := hdone
    rw [← htr] at hcl
    simp only [PipelineTrace.mk.injEq] at hcl
    have hcl2 : (!req.skip_clinical.getD true && m.clinical) = true := hcl
    rw [Bool.and_eq_true, Bool.not_eq_eq_eq_not] at hcl2
    obtain ⟨hsc, hclin⟩ := hcl2
    refine ⟨?_, hclin⟩
    cases hopt : req.skip_clinical with
    | none => rw [hopt] at hsc; simp at hsc
    | some b =>
      rw [hopt] at hsc
      simp at hsc
      rw [hsc]

/-- Witness for C9_skip_flag_defaults at a fully loaded registry and a defaulted
    request. -/
theorem C9_skip_flag_defaults_witness :
    process_run modelsAll "u" reqDefaults = .done "job-1" ⟨true, false⟩ :=
  (C9_skip_flag_defaults modelsAll reqDefaults "u" "a.wav" rfl rfl (by decide)).1 rfl rfl

/-- Claim C10, confirmed: translate_json leaves the caller object unchanged: in the
    heap model the value stored at the input address after the call equals the value
    before it, on every path (validation error, skip path, and the translating path,
    which mutates only a fresh deep copy). -/
theorem C10_input_not_mutated (api : ApiModel) (heap : List TranscriptJson) (a : Nat) :
    ((translate_json_heap api heap a).1)[a]? = heap[a]? := by
  unfold translate_json_heap
  split
  · rfl
  next j hj =>
    split
    · rfl
    next ts ht =>
      split
      · rfl
      next hskip =>
        have ha : a < heap.length := (List.getElem?_eq_some.mp hj).1
        show ((heap ++ [j]).set heap.length _)[a]? = heap[a]?
        rw [List.getElem?_set_ne (Nat.ne_of_gt ha), List.getElem?_append_left ha]

end ContextMD
